import Mathlib

/-!
Shallow embedding of the Linux epoll reactor in `poll_default_linux.go`
(package netpoll): the event handler, `Control`, `Trigger`, `Close` and the
`Wait` loop, with external effects (syscalls, operator callbacks) recorded as
explicit action traces and their results supplied by per-event oracles.
-/

namespace Netpoll

/-- Linux epoll interest / event bits (values of the Go `syscall` package). -/
def EPOLLIN : Nat := 0x1

/-- EPOLLOUT bit. -/
def EPOLLOUT : Nat := 0x4

/-- EPOLLERR bit. -/
def EPOLLERR : Nat := 0x8

/-- EPOLLHUP bit. -/
def EPOLLHUP : Nat := 0x10

/-- EPOLLRDHUP bit. -/
def EPOLLRDHUP : Nat := 0x2000

/-- Edge-trigger flag (bit 31), as used in `EPOLLET|syscall.EPOLLOUT`. -/
def EPOLLET : Nat := 0x80000000

/-- epoll_ctl operation codes. -/
def EPOLL_CTL_ADD : Nat := 1

/-- epoll_ctl DEL operation code. -/
def EPOLL_CTL_DEL : Nat := 2

/-- epoll_ctl MOD operation code. -/
def EPOLL_CTL_MOD : Nat := 3

/-- errno EAGAIN on Linux. -/
def EAGAIN : Nat := 11

/-- errno EINTR on Linux. -/
def EINTR : Nat := 4

/-- The semantic poll events of the `Control` API. -/
inductive PollEvent where
  | PollReadable
  | PollWritable
  | PollModReadable
  | PollDetach
  | PollR2RW
  | PollRW2R
deriving DecidableEq, Repr

/-- The slice of `FDOperator` state the poller core reads: the descriptor,
which callbacks are non-nil, and the result of the `do()` gate for the
current event (the operator's detach state is external to this file). -/
structure FDOperator where
  FD : Nat
  doResult : Bool
  hasOnRead : Bool
  hasInputs : Bool
  hasOnWrite : Bool
  hasOutputs : Bool
deriving DecidableEq, Repr

/-- An epoll event as delivered by `epoll_wait`: the ready bits and the
operator recovered from the opaque 64-bit `data` field. -/
structure EpollEvent where
  events : Nat
  op : FDOperator
deriving DecidableEq, Repr

/-- Oracle for the external calls the handler makes while dispatching one
event: lengths returned by `Inputs`/`Outputs`, results of `readv`,
`sendmsg` and the `recvmsg(MSG_ERRQUEUE)` probe (errors are `some errno`),
and the first byte read from the eventfd on a wake event. -/
structure EventEnv where
  inputsLen : Nat
  readvN : Nat
  readvErr : Option Nat
  outputsLen : Nat
  sendmsgN : Nat
  sendmsgErr : Option Nat
  recvmsgErr : Option Nat
  wakeBuf0 : Nat
deriving DecidableEq, Repr

/-- Observable actions of the handler, in program order. -/
inductive Action where
  | readWake (fd : Nat) (count : Nat)
  | storeTrigger (v : Nat)
  | closeFD (fd : Nat)
  | done (fd : Nat)
  | onRead (fd : Nat)
  | inputsCall (fd : Nat)
  | readvCall (fd : Nat)
  | inputAck (fd : Nat) (n : Nat)
  | logCritical (fd : Nat)
  | logReadvErr (fd : Nat)
  | hupRecord (fd : Nat)
  | ctlDetach (fd : Nat)
  | recvmsgProbe (fd : Nat)
  | onWrite (fd : Nat)
  | outputsCall (fd : Nat)
  | sendmsgCall (fd : Nat) (zcopy : Bool)
  | outputAck (fd : Nat) (n : Nat)
  | logSendmsgErr (fd : Nat)
deriving DecidableEq, Repr

/-- Result of dispatching one event: the action trace, the `OnHup` entries
appended to `p.hups`, and whether the handler returned `true` (shutdown). -/
structure EventResult where
  actions : List Action
  hups : List Nat
  closed : Bool
deriving DecidableEq, Repr

/-- Poller identity needed by the handler: the epoll fd and the wake
eventfd (`p.wop.FD`). -/
structure Poll where
  fd : Nat
  wopFD : Nat
deriving DecidableEq, Repr

/-- `appendHup`: record `OnHup` in `p.hups`, issue `Control(PollDetach)`,
then release the reference with `done()`. -/
def appendHupActs (operator : FDOperator) : List Action :=
  [Action.hupRecord operator.FD, Action.ctlDetach operator.FD,
   Action.done operator.FD]

/-- Prefix an event result with earlier actions of the same event. -/
def EventResult.withPre (pre : List Action) (r : EventResult) : EventResult :=
  ⟨pre ++ r.actions, r.hups, r.closed⟩

/-- Is a `readv` error fatal? Go: `err != nil && err != EAGAIN && err != EINTR`. -/
def readvErrBad : Option Nat → Bool
  | none => false
  | some e => e ≠ EAGAIN && e ≠ EINTR

/-- Is a `sendmsg` error fatal? Go: `err != nil && err != EAGAIN`. -/
def sendmsgErrBad : Option Nat → Bool
  | none => false
  | some e => e ≠ EAGAIN

/-- The `check poll out` tail of the per-event dispatch, ending in the final
`operator.done()` unless `appendHup` (which itself calls `done`) diverted. -/
def checkOut (operator : FDOperator) (evt : Nat) (env : EventEnv) : EventResult :=
  if evt &&& EPOLLOUT ≠ 0 then
    if operator.hasOnWrite then
      ⟨[Action.onWrite operator.FD, Action.done operator.FD], [], false⟩
    else if operator.hasOutputs then
      if env.outputsLen > 0 then
        let base := [Action.outputsCall operator.FD,
                     Action.sendmsgCall operator.FD false,
                     Action.outputAck operator.FD env.sendmsgN]
        if sendmsgErrBad env.sendmsgErr then
          ⟨base ++ [Action.logSendmsgErr operator.FD] ++ appendHupActs operator,
           [operator.FD], false⟩
        else
          ⟨base ++ [Action.done operator.FD], [], false⟩
      else
        ⟨[Action.outputsCall operator.FD, Action.done operator.FD], [], false⟩
    else
      ⟨[Action.logCritical operator.FD, Action.done operator.FD], [], false⟩
  else
    ⟨[Action.done operator.FD], [], false⟩

/-- The `EPOLLERR` step: probe with `recvmsg(MSG_ERRQUEUE)`; `EAGAIN` means
spurious (just `done()`), anything else (including success) hangs up; either
way `continue` (never reach the OUT step). -/
def checkErr (operator : FDOperator) (evt : Nat) (env : EventEnv) : EventResult :=
  if evt &&& EPOLLERR ≠ 0 then
    if env.recvmsgErr = some EAGAIN then
      ⟨[Action.recvmsgProbe operator.FD, Action.done operator.FD], [], false⟩
    else
      ⟨Action.recvmsgProbe operator.FD :: appendHupActs operator,
       [operator.FD], false⟩
  else
    checkOut operator evt env

/-- The hang-up step: `EPOLLHUP|EPOLLRDHUP` schedules the hang-up and
`continue`s, skipping the ERR and OUT steps. -/
def checkHup (operator : FDOperator) (evt : Nat) (env : EventEnv) : EventResult :=
  if evt &&& (EPOLLHUP ||| EPOLLRDHUP) ≠ 0 then
    ⟨appendHupActs operator, [operator.FD], false⟩
  else
    checkErr operator evt env

/-- The `check poll in` step. On a fatal `readv` error the handler logs,
calls `appendHup` and `continue`s; otherwise it falls through to the
HUP/ERR/OUT steps with the IN actions already performed. -/
def checkIn (operator : FDOperator) (evt : Nat) (env : EventEnv) : EventResult :=
  if evt &&& EPOLLIN ≠ 0 then
    if operator.hasOnRead then
      EventResult.withPre [Action.onRead operator.FD] (checkHup operator evt env)
    else if operator.hasInputs then
      if env.inputsLen > 0 then
        let base := [Action.inputsCall operator.FD, Action.readvCall operator.FD,
                     Action.inputAck operator.FD env.readvN]
        if readvErrBad env.readvErr then
          ⟨base ++ [Action.logReadvErr operator.FD] ++ appendHupActs operator,
           [operator.FD], false⟩
        else
          EventResult.withPre base (checkHup operator evt env)
      else
        EventResult.withPre [Action.inputsCall operator.FD]
          (checkHup operator evt env)
    else
      EventResult.withPre [Action.logCritical operator.FD]
        (checkHup operator evt env)
  else
    checkHup operator evt env

/-- Dispatch of one event by `defaultPoll.handler`: the `do()` gate, the
wake-eventfd branch (drain 8 bytes, clear the trigger flag, shut down when
`buf[0] > 0`), then the IN/HUP/ERR/OUT chain. -/
def handleOne (p : Poll) (ev : EpollEvent) (env : EventEnv) : EventResult :=
  let operator := ev.op
  if operator.doResult = false then
    ⟨[], [], false⟩
  else if operator.FD = p.wopFD then
    if env.wakeBuf0 > 0 then
      ⟨[Action.readWake p.wopFD 8, Action.storeTrigger 0,
        Action.closeFD p.wopFD, Action.closeFD p.fd,
        Action.done operator.FD], [], true⟩
    else
      ⟨[Action.readWake p.wopFD 8, Action.storeTrigger 0,
        Action.done operator.FD], [], false⟩
  else
    checkIn operator ev.events env

/-- The batch loop of `defaultPoll.handler`: stops at the first event whose
dispatch returns `true` (shutdown); later events are not dispatched. -/
def handlerLoop (p : Poll) : List (EpollEvent × EventEnv) → List EventResult × Bool
  | [] => ([], false)
  | (ev, env) :: rest =>
    let r := handleOne p ev env
    if r.closed then ([r], true)
    else
      let (rs, c) := handlerLoop p rest
      (r :: rs, c)

/-- Result of a whole `handler` invocation: per-dispatched-event results in
order, the return value, and whether the trailing `p.detaches()` ran. -/
structure HandlerResult where
  results : List EventResult
  closed : Bool
  detachesRun : Bool
deriving DecidableEq, Repr

/-- `defaultPoll.handler` on one batch: run the loop; `p.detaches()` runs
only when the loop completes (an early shutdown return skips it). -/
def handler (p : Poll) (batch : List (EpollEvent × EventEnv)) : HandlerResult :=
  ⟨(handlerLoop p batch).1, (handlerLoop p batch).2, !(handlerLoop p batch).2⟩

/-- Observable actions of `defaultPoll.Control`. -/
inductive CtlAct where
  | inuse
  | epollCtl (op : Nat) (events : Nat)
deriving DecidableEq, Repr

/-- `defaultPoll.Control`: translate a `PollEvent` into an `epoll_ctl`
operation and interest bits; the two ADD variants call `operator.inuse()`
before the syscall. -/
def Control (event : PollEvent) : List CtlAct :=
  match event with
  | .PollReadable =>
    [CtlAct.inuse,
     CtlAct.epollCtl EPOLL_CTL_ADD (EPOLLIN ||| EPOLLRDHUP ||| EPOLLERR)]
  | .PollWritable =>
    [CtlAct.inuse,
     CtlAct.epollCtl EPOLL_CTL_ADD (EPOLLET ||| EPOLLOUT ||| EPOLLRDHUP ||| EPOLLERR)]
  | .PollModReadable =>
    [CtlAct.epollCtl EPOLL_CTL_MOD (EPOLLIN ||| EPOLLRDHUP ||| EPOLLERR)]
  | .PollDetach =>
    [CtlAct.epollCtl EPOLL_CTL_DEL
      (EPOLLIN ||| EPOLLOUT ||| EPOLLRDHUP ||| EPOLLERR)]
  | .PollR2RW =>
    [CtlAct.epollCtl EPOLL_CTL_MOD
      (EPOLLIN ||| EPOLLOUT ||| EPOLLRDHUP ||| EPOLLERR)]
  | .PollRW2R =>
    [CtlAct.epollCtl EPOLL_CTL_MOD (EPOLLIN ||| EPOLLRDHUP ||| EPOLLERR)]

/-- The 8-byte payload `Trigger` writes to the eventfd:
`[]byte{0, 0, 0, 0, 0, 0, 0, 1}`, i.e. little-endian `0x0100000000000000`. -/
def triggerPayload : List Nat := [0, 0, 0, 0, 0, 0, 0, 1]

/-- The 8-byte payload `Close` writes to the eventfd:
`[]byte{1, 0, 0, 0, 0, 0, 0, 0}`, i.e. little-endian `0x0000000000000001`. -/
def closePayload : List Nat := [1, 0, 0, 0, 0, 0, 0, 0]

/-- Result of `defaultPoll.Trigger`: the new value of the `uint32` trigger
flag and the payload written to the eventfd, if any. -/
structure TriggerResult where
  trigger : Nat
  written : Option (List Nat)
deriving DecidableEq, Repr

/-- `defaultPoll.Trigger`: `atomic.AddUint32(&p.trigger, 1)` (32-bit
wrapping) and, unless the result exceeds 1, write `triggerPayload`. -/
def Trigger (trigger : Nat) : TriggerResult :=
  let t := (trigger + 1) % 4294967296
  if t > 1 then ⟨t, none⟩ else ⟨t, some triggerPayload⟩

/-- The poller's scratch arrays (`pollArgs`). -/
structure PollArgs where
  size : Nat
  caps : Nat
  eventsLen : Nat
  barriersLen : Nat
deriving DecidableEq, Repr

/-- `pollArgs.reset`: reallocate the event array and the barrier array,
both of length `size` (each barrier holding `caps` slots). -/
def PollArgs.reset (_a : PollArgs) (size caps : Nat) : PollArgs :=
  ⟨size, caps, size, size⟩

/-- The resize step at the top of `Wait`'s loop:
`if n == p.size && p.size < 128*1024 { p.Reset(p.size << 1, caps) }`. -/
def resize (size n : Nat) : Nat :=
  if n = size ∧ size < 128 * 1024 then size * 2 else size

/-- One outcome of an `EpollWait` call, as seen by `Wait`'s loop: either an
error (`n <= 0`), or a batch of `n = batch.length` events together with the
oracle for their dispatch. -/
inductive WaitStep where
  | err (e : Nat)
  | ok (batch : List (EpollEvent × EventEnv))
deriving DecidableEq, Repr

/-- How a run of `Wait`'s loop ended: a propagated `EpollWait` error, the
nil return after the handler reported shutdown, or the supplied script of
kernel outcomes ran out (the loop would continue). -/
inductive WaitOutcome where
  | errored (e : Nat)
  | shutdown
  | ranOut (size : Nat)
deriving DecidableEq, Repr

/-- Record of one iteration of `Wait`'s loop: the size entering the
iteration, the `n` from the previous `EpollWait`, the size actually passed
to `EpollWait` (after the resize step), whether the handler ran (with the
batch length), and whether `opcache.free()` ran. -/
structure IterRec where
  sizeBefore : Nat
  nPrev : Nat
  sizeUsed : Nat
  handled : Option Nat
  freed : Bool
deriving DecidableEq, Repr

/-- The loop of `defaultPoll.Wait`, driven by a script of `EpollWait`
outcomes: resize, call `EpollWait`; a non-`EINTR` error returns; `n <= 0`
(including `EINTR`) retries; otherwise dispatch the batch, return nil on
shutdown, else `opcache.free()` and loop. -/
def waitLoop (p : Poll) : Nat → Nat → List WaitStep → WaitOutcome × List IterRec
  | size, _n, [] => (.ranOut size, [])
  | size, n, step :: rest =>
    match step with
    | .err e =>
      if e = EINTR then
        ((waitLoop p (resize size n) 0 rest).1,
         ⟨size, n, resize size n, none, false⟩
           :: (waitLoop p (resize size n) 0 rest).2)
      else
        (.errored e, [⟨size, n, resize size n, none, false⟩])
    | .ok batch =>
      if batch.length = 0 then
        ((waitLoop p (resize size n) 0 rest).1,
         ⟨size, n, resize size n, none, false⟩
           :: (waitLoop p (resize size n) 0 rest).2)
      else
        if (handler p batch).closed then
          (.shutdown, [⟨size, n, resize size n, some batch.length, false⟩])
        else
          ((waitLoop p (resize size n) batch.length rest).1,
           ⟨size, n, resize size n, some batch.length, true⟩
             :: (waitLoop p (resize size n) batch.length rest).2)

/-- `defaultPoll.Wait`: `p.Reset(128, caps)` then the loop, starting with
`n = 0`. -/
def Wait (p : Poll) (script : List WaitStep) : WaitOutcome × List IterRec :=
  waitLoop p 128 0 script

/-! Observations on action traces. -/

/-- Is an action a `done()` call? -/
def isDoneAct : Action → Bool
  | .done _ => true
  | _ => false

/-- Number of `done()` calls in a trace. -/
def countDone (l : List Action) : Nat := l.countP isDoneAct

/-- Number of `done()` calls on the operator with descriptor `fd`. -/
def countDoneFor (fd : Nat) (l : List Action) : Nat :=
  l.countP (fun a => a = Action.done fd)

/-- Is an action part of OUT processing (`OnWrite`/`Outputs`/`sendmsg`/
`OutputAck`)? -/
def isOutAct : Action → Bool
  | .onWrite _ => true
  | .outputsCall _ => true
  | .sendmsgCall _ _ => true
  | .outputAck _ _ => true
  | _ => false

theorem checkOut_countDone (op : FDOperator) (evt : Nat) (env : EventEnv) :
    countDone (checkOut op evt env).actions = 1 ∧
    countDoneFor op.FD (checkOut op evt env).actions = 1 ∧
    (checkOut op evt env).closed = false := by
  unfold checkOut
  repeat' split
  all_goals
    simp [countDone, countDoneFor, appendHupActs, isDoneAct,
      List.countP_cons, List.countP_nil, List.countP_append]

theorem checkErr_countDone (op : FDOperator) (evt : Nat) (env : EventEnv) :
    countDone (checkErr op evt env).actions = 1 ∧
    countDoneFor op.FD (checkErr op evt env).actions = 1 ∧
    (checkErr op evt env).closed = false := by
  unfold checkErr
  split
  · split
    all_goals
      simp [countDone, countDoneFor, appendHupActs, isDoneAct,
        List.countP_cons, List.countP_nil, List.countP_append]
  · exact checkOut_countDone op evt env

theorem checkHup_countDone (op : FDOperator) (evt : Nat) (env : EventEnv) :
    countDone (checkHup op evt env).actions = 1 ∧
    countDoneFor op.FD (checkHup op evt env).actions = 1 ∧
    (checkHup op evt env).closed = false := by
  unfold checkHup
  split
  · simp [countDone, countDoneFor, appendHupActs, isDoneAct,
      List.countP_cons, List.countP_nil]
  · exact checkErr_countDone op evt env

theorem checkIn_countDone (op : FDOperator) (evt : Nat) (env : EventEnv) :
    countDone (checkIn op evt env).actions = 1 ∧
    countDoneFor op.FD (checkIn op evt env).actions = 1 ∧
    (checkIn op evt env).closed = false := by
  have h := checkHup_countDone op evt env
  unfold checkIn
  repeat' split
  all_goals
    simp [countDone, countDoneFor, appendHupActs, isDoneAct,
      EventResult.withPre, List.countP_cons, List.countP_nil,
      List.countP_append] at h ⊢
  all_goals exact h

theorem handleOne_countDone (p : Poll) (ev : EpollEvent) (env : EventEnv) :
    countDone (handleOne p ev env).actions
        = (if ev.op.doResult then 1 else 0) ∧
    countDoneFor ev.op.FD (handleOne p ev env).actions
        = (if ev.op.doResult then 1 else 0) := by
  obtain ⟨h1, h2, -⟩ := checkIn_countDone ev.op ev.events env
  unfold handleOne
  cases hdo : ev.op.doResult with
  | false => simp [hdo, countDone, countDoneFor, isDoneAct]
  | true =>
    by_cases hw : ev.op.FD = p.wopFD
    · by_cases hb : env.wakeBuf0 > 0 <;>
        simp [hdo, hw, hb, countDone, countDoneFor, isDoneAct,
          List.countP_cons, List.countP_nil]
    · simpa [hdo, hw, countDone, countDoneFor] using And.intro h1 h2

theorem handlerLoop_zip (p : Poll) :
    ∀ (batch : List (EpollEvent × EventEnv))
      (pr : (EpollEvent × EventEnv) × EventResult),
      pr ∈ batch.zip (handlerLoop p batch).1 →
      pr.2 = handleOne p pr.1.1 pr.1.2 := by
  intro batch
  induction batch with
  | nil => simp [handlerLoop]
  | cons hd tl ih =>
    obtain ⟨ev, env⟩ := hd
    intro pr h
    rw [handlerLoop] at h
    by_cases hc : (handleOne p ev env).closed = true
    · rw [if_pos hc] at h
      simp only [List.zip_cons_cons, List.zip_nil_right,
        List.mem_singleton] at h
      rw [h]
    · rw [if_neg hc] at h
      simp only [List.zip_cons_cons, List.mem_cons] at h
      rcases h with h | h
      · rw [h]
      · exact ih pr h

theorem handlerLoop_length_le (p : Poll) :
    ∀ batch : List (EpollEvent × EventEnv),
      (handlerLoop p batch).1.length ≤ batch.length := by
  intro batch
  induction batch with
  | nil => simp [handlerLoop]
  | cons hd tl ih =>
    obtain ⟨ev, env⟩ := hd
    rw [handlerLoop]
    by_cases hc : (handleOne p ev env).closed = true
    · rw [if_pos hc]
      simp
    · rw [if_neg hc]
      simp only [List.length_cons]
      omega

theorem handlerLoop_length_eq (p : Poll) :
    ∀ batch : List (EpollEvent × EventEnv),
      (handlerLoop p batch).2 = false →
      (handlerLoop p batch).1.length = batch.length := by
  intro batch
  induction batch with
  | nil => simp [handlerLoop]
  | cons hd tl ih =>
    obtain ⟨ev, env⟩ := hd
    rw [handlerLoop]
    by_cases hc : (handleOne p ev env).closed = true
    · rw [if_pos hc]
      simp
    · rw [if_neg hc]
      intro h2
      simp only [List.length_cons]
      rw [ih h2]

theorem handlerLoop_closed_split (p : Poll) :
    ∀ batch : List (EpollEvent × EventEnv),
      (handlerLoop p batch).2 = true →
      ∃ rs r, (handlerLoop p batch).1 = rs ++ [r] ∧ r.closed = true ∧
        ∀ x ∈ rs, x.closed = false := by
  intro batch
  induction batch with
  | nil => simp [handlerLoop]
  | cons hd tl ih =>
    obtain ⟨ev, env⟩ := hd
    rw [handlerLoop]
    by_cases hc : (handleOne p ev env).closed = true
    · rw [if_pos hc]
      intro _
      exact ⟨[], handleOne p ev env, by simp, hc, by simp⟩
    · rw [if_neg hc]
      rw [Bool.not_eq_true] at hc
      intro h2
      obtain ⟨rs, r, heq, hr, hall⟩ := ih h2
      refine ⟨handleOne p ev env :: rs, r, by simp [heq], hr, ?_⟩
      intro x hx
      rcases List.mem_cons.mp hx with h | h
      · rw [h]
        exact hc
      · exact hall x h

/-! Claim C1. -/

/-- C1: for every event dispatched by the handler (paired by position with
its dispatch result), `done()` is called exactly once on the operator
recovered from the event's data field when `do()` returned true, and never
when `do()` returned false — on every dispatch path; moreover when the
handler does not report shutdown it dispatches every event of the batch. -/
theorem c1_done_exactly_once (p : Poll) (batch : List (EpollEvent × EventEnv))
    (pr : (EpollEvent × EventEnv) × EventResult)
    (h : pr ∈ batch.zip (handler p batch).results) :
    countDoneFor pr.1.1.op.FD pr.2.actions
        = (if pr.1.1.op.doResult then 1 else 0) ∧
    countDone pr.2.actions = (if pr.1.1.op.doResult then 1 else 0) ∧
    ((handler p batch).closed = false →
      (handler p batch).results.length = batch.length) := by
  have hz := handlerLoop_zip p batch pr (by simpa [handler] using h)
  have h1 := handleOne_countDone p pr.1.1 pr.1.2
  refine ⟨?_, ?_, ?_⟩
  · rw [hz]
    exact h1.2
  · rw [hz]
    exact h1.1
  · intro hc
    simpa [handler] using
      handlerLoop_length_eq p batch (by simpa [handler] using hc)

/-- Concrete witness data for C1: one readable event on a listener-style
operator. -/
def w1Poll : Poll := ⟨1, 0⟩

/-- Witness operator for C1. -/
def w1Op : FDOperator := ⟨5, true, true, false, false, false⟩

/-- Witness event for C1. -/
def w1Ev : EpollEvent := ⟨EPOLLIN, w1Op⟩

/-- Witness oracle for C1. -/
def w1Env : EventEnv := ⟨0, 0, none, 0, 0, none, none, 0⟩

/-- Witness batch for C1. -/
def w1Batch : List (EpollEvent × EventEnv) := [(w1Ev, w1Env)]

/-- Witness pair for C1. -/
def w1Pr : (EpollEvent × EventEnv) × EventResult :=
  ((w1Ev, w1Env), handleOne w1Poll w1Ev w1Env)

/-- Witness for C1 at a concrete one-event batch. -/
theorem c1_witness :
    countDoneFor w1Pr.1.1.op.FD w1Pr.2.actions
        = (if w1Pr.1.1.op.doResult then 1 else 0) ∧
    countDone w1Pr.2.actions = (if w1Pr.1.1.op.doResult then 1 else 0) ∧
    ((handler w1Poll w1Batch).closed = false →
      (handler w1Poll w1Batch).results.length = w1Batch.length) :=
  c1_done_exactly_once w1Poll w1Batch w1Pr (by decide)

/-! Claim C2. -/

/-- Counterexample event for C2: IN set, neither `OnRead` nor `Inputs`. -/
def c2Ev : EpollEvent := ⟨EPOLLIN, ⟨5, true, false, false, false, false⟩⟩

/-- Counterexample to C2: on an IN event whose operator has neither
`OnRead` nor `Inputs`, the handler logs the problem but, contrary to the
claim, still calls `done()` (the log does not `continue`, so control falls
through to the final `operator.done()`). -/
theorem c2_counterexample :
    Action.logCritical 5 ∈
        (handleOne ⟨1, 0⟩ c2Ev ⟨0, 0, none, 0, 0, none, none, 0⟩).actions ∧
    countDoneFor 5
        (handleOne ⟨1, 0⟩ c2Ev ⟨0, 0, none, 0, 0, none, none, 0⟩).actions
      = 1 := by decide

/-- C2 as amended: when an IN (resp. reached OUT) event finds an operator
with neither of the corresponding callbacks, the handler logs the problem
and skips the I/O for that bit, but the event still falls through to the
final `done()`, so the inuse reference IS released exactly once. -/
theorem c2_missing_callbacks (p : Poll) (ev : EpollEvent) (env : EventEnv)
    (hdo : ev.op.doResult = true) (hw : ev.op.FD ≠ p.wopFD)
    (h : (ev.events &&& EPOLLIN ≠ 0 ∧ ev.op.hasOnRead = false ∧
            ev.op.hasInputs = false) ∨
         (ev.events &&& EPOLLOUT ≠ 0 ∧ ev.events &&& EPOLLIN = 0 ∧
            ev.events &&& (EPOLLHUP ||| EPOLLRDHUP) = 0 ∧
            ev.events &&& EPOLLERR = 0 ∧
            ev.op.hasOnWrite = false ∧ ev.op.hasOutputs = false)) :
    Action.logCritical ev.op.FD ∈ (handleOne p ev env).actions ∧
    countDoneFor ev.op.FD (handleOne p ev env).actions = 1 ∧
    countDone (handleOne p ev env).actions = 1 := by
  have hcnt := handleOne_countDone p ev env
  refine ⟨?_, by simpa [hdo] using hcnt.2, by simpa [hdo] using hcnt.1⟩
  unfold handleOne
  rw [if_neg (by simp [hdo]), if_neg hw]
  rcases h with ⟨hin, hr, hi⟩ | ⟨hout, hin, hh, he, hw', ho⟩
  · unfold checkIn
    rw [if_pos hin, if_neg (by simp [hr]), if_neg (by simp [hi])]
    simp [EventResult.withPre]
  · unfold checkIn checkHup checkErr checkOut
    rw [if_neg (by simp [hin]), if_neg (by simp [hh]), if_neg (by simp [he]),
      if_pos hout, if_neg (by simp [hw']), if_neg (by simp [ho])]
    simp

/-- Witness for the amended C2 at the counterexample input. -/
theorem c2_witness :
    Action.logCritical c2Ev.op.FD ∈
        (handleOne ⟨1, 0⟩ c2Ev ⟨0, 0, none, 0, 0, none, none, 0⟩).actions ∧
    countDoneFor c2Ev.op.FD
        (handleOne ⟨1, 0⟩ c2Ev ⟨0, 0, none, 0, 0, none, none, 0⟩).actions = 1 ∧
    countDone
        (handleOne ⟨1, 0⟩ c2Ev ⟨0, 0, none, 0, 0, none, none, 0⟩).actions
      = 1 :=
  c2_missing_callbacks ⟨1, 0⟩ c2Ev ⟨0, 0, none, 0, 0, none, none, 0⟩
    (by decide) (by decide) (by decide)

/-! Claim C3. -/

/-- C3: `Control` performs exactly the `epoll_ctl` operation and interest
bits of the spec's table for each of the six `PollEvent`s, and calls
`operator.inuse()` before the syscall exactly for the two ADD variants
`PollReadable` and `PollWritable`. -/
theorem c3_control_table :
    Control .PollReadable
        = [CtlAct.inuse,
           CtlAct.epollCtl EPOLL_CTL_ADD (EPOLLIN ||| EPOLLRDHUP ||| EPOLLERR)] ∧
    Control .PollWritable
        = [CtlAct.inuse,
           CtlAct.epollCtl EPOLL_CTL_ADD
             (EPOLLET ||| EPOLLOUT ||| EPOLLRDHUP ||| EPOLLERR)] ∧
    Control .PollModReadable
        = [CtlAct.epollCtl EPOLL_CTL_MOD (EPOLLIN ||| EPOLLRDHUP ||| EPOLLERR)] ∧
    Control .PollRW2R
        = [CtlAct.epollCtl EPOLL_CTL_MOD (EPOLLIN ||| EPOLLRDHUP ||| EPOLLERR)] ∧
    Control .PollR2RW
        = [CtlAct.epollCtl EPOLL_CTL_MOD
             (EPOLLIN ||| EPOLLOUT ||| EPOLLRDHUP ||| EPOLLERR)] ∧
    (∃ bits, Control .PollDetach = [CtlAct.epollCtl EPOLL_CTL_DEL bits]) ∧
    (∀ e : PollEvent,
      (Control e).countP (fun a => a = CtlAct.inuse)
        = (if e = .PollReadable ∨ e = .PollWritable then 1 else 0)) := by
  refine ⟨rfl, rfl, rfl, rfl, rfl, ⟨_, rfl⟩, ?_⟩
  intro e
  cases e <;> decide

/-! Claim C4. -/

/-- Counterexample to C4: the trigger flag is a `uint32` and
`atomic.AddUint32` wraps, so at the pre-increment value `2^32 - 1` (which
is nonzero) the post-increment value is 0, the `> 1` guard fails, and
`Trigger` DOES write the payload — the claim's "if and only if the
pre-increment value was 0" is false there. -/
theorem c4_counterexample :
    (Trigger 4294967295).written = some triggerPayload ∧
    (4294967295 : Nat) ≠ 0 := by decide

/-- C4 as amended: `Trigger` increments the flag modulo `2^32` and writes
the payload `{0,0,0,0,0,0,0,1}` (byte 0 zero, little-endian
`0x0100000000000000`) exactly when the post-increment value is at most 1,
i.e. when the pre-increment value was 0 or `2^32 - 1`; for any other
pre-increment value it writes nothing. -/
theorem c4_trigger_amended (t : Nat) (ht : t < 4294967296) :
    (Trigger t).trigger = (t + 1) % 4294967296 ∧
    ((Trigger t).written = some triggerPayload ↔ (t = 0 ∨ t = 4294967295)) ∧
    (¬(t = 0 ∨ t = 4294967295) → (Trigger t).written = none) ∧
    triggerPayload.length = 8 ∧ triggerPayload.headI = 0 := by
  have hmain : (Trigger t).written
      = if t = 0 ∨ t = 4294967295 then some triggerPayload else none := by
    simp only [Trigger]
    by_cases h0 : t = 0
    · subst h0
      decide
    · by_cases h1 : t = 4294967295
      · subst h1
        decide
      · have hlt : t + 1 < 4294967296 := by omega
        rw [Nat.mod_eq_of_lt hlt,
          if_pos (show 1 < t + 1 by omega),
          if_neg (show ¬(t = 0 ∨ t = 4294967295) by tauto)]
  refine ⟨?_, ?_, ?_, rfl, rfl⟩
  · simp only [Trigger]
    split <;> rfl
  · rw [hmain]
    constructor
    · intro hw
      by_contra hc
      rw [if_neg hc] at hw
      exact Option.noConfusion hw
    · intro hc
      rw [if_pos hc]
  · intro hc
    rw [hmain, if_neg hc]

/-- Witness for the amended C4 at pre-increment value 0. -/
theorem c4_witness :
    (Trigger 0).trigger = (0 + 1) % 4294967296 ∧
    ((Trigger 0).written = some triggerPayload ↔ (0 = 0 ∨ 0 = 4294967295)) ∧
    (¬(0 = 0 ∨ 0 = 4294967295) → (Trigger 0).written = none) ∧
    triggerPayload.length = 8 ∧ triggerPayload.headI = 0 :=
  c4_trigger_amended 0 (by decide)

/-! Claim C5. -/

theorem handlerLoop_closed_ne_nil (p : Poll)
    (batch : List (EpollEvent × EventEnv)) :
    (handlerLoop p batch).2 = true → batch ≠ [] := by
  intro h hnil
  subst hnil
  simp [handlerLoop] at h

/-- C5: `Close` writes an 8-byte payload whose first byte is 1; on a wake
event the handler reads 8 bytes, clears the trigger flag, and inspects the
first byte read: nonzero closes the wake eventfd then the epoll fd, calls
`done()` and returns true (so `Wait` returns nil); zero just calls `done()`
and continues without closing any descriptor. -/
theorem c5_close_shutdown :
    (closePayload.length = 8 ∧ closePayload.headI = 1) ∧
    (∀ (p : Poll) (ev : EpollEvent) (env : EventEnv),
      ev.op.doResult = true → ev.op.FD = p.wopFD →
      (env.wakeBuf0 > 0 →
        handleOne p ev env =
          ⟨[Action.readWake p.wopFD 8, Action.storeTrigger 0,
            Action.closeFD p.wopFD, Action.closeFD p.fd,
            Action.done ev.op.FD], [], true⟩) ∧
      (env.wakeBuf0 = 0 →
        handleOne p ev env =
          ⟨[Action.readWake p.wopFD 8, Action.storeTrigger 0,
            Action.done ev.op.FD], [], false⟩ ∧
        ∀ fd, Action.closeFD fd ∉ (handleOne p ev env).actions)) ∧
    (∀ (p : Poll) (size n : Nat) (batch : List (EpollEvent × EventEnv))
        (rest : List WaitStep),
      (handler p batch).closed = true →
      (waitLoop p size n (WaitStep.ok batch :: rest)).1
        = WaitOutcome.shutdown) := by
  refine ⟨⟨rfl, rfl⟩, ?_, ?_⟩
  · intro p ev env hdo hw
    constructor
    · intro hb
      unfold handleOne
      rw [if_neg (by simp [hdo]), if_pos hw, if_pos hb]
    · intro hb
      have heq : handleOne p ev env =
          ⟨[Action.readWake p.wopFD 8, Action.storeTrigger 0,
            Action.done ev.op.FD], [], false⟩ := by
        unfold handleOne
        rw [if_neg (by simp [hdo]), if_pos hw, if_neg (by omega)]
      refine ⟨heq, ?_⟩
      intro fd
      rw [heq]
      simp
  · intro p size n batch rest hc
    have hne : batch ≠ [] := handlerLoop_closed_ne_nil p batch (by simpa [handler] using hc)
    rw [waitLoop]
    rw [if_neg (by simpa using hne)]
    rw [if_pos (by simpa [handler] using hc)]

/-- Witness event for C5: the wake operator's own event. -/
def w5Ev : EpollEvent := ⟨EPOLLIN, ⟨0, true, false, false, false, false⟩⟩

/-- Witness oracle for C5: the eventfd read yields first byte 1. -/
def w5Env : EventEnv := ⟨0, 0, none, 0, 0, none, none, 1⟩

/-- Witness for C5: a shutdown wake on a concrete poller closes both
descriptors and makes the wait loop return nil. -/
theorem c5_witness :
    handleOne ⟨1, 0⟩ w5Ev w5Env =
      ⟨[Action.readWake 0 8, Action.storeTrigger 0,
        Action.closeFD 0, Action.closeFD 1, Action.done 0], [], true⟩ ∧
    (waitLoop ⟨1, 0⟩ 128 0 [WaitStep.ok [(w5Ev, w5Env)]]).1
      = WaitOutcome.shutdown := by
  constructor
  · exact (c5_close_shutdown.2.1 ⟨1, 0⟩ w5Ev w5Env rfl rfl).1 (by decide)
  · exact c5_close_shutdown.2.2 ⟨1, 0⟩ 128 0 [(w5Ev, w5Env)] [] (by decide)

/-! Shape of the IN step, shared by the HUP and ERR claims. -/

/-- Does the IN step of the dispatch `continue` on its own (fatal `readv`
error on a connection operator), so that the HUP/ERR/OUT steps are never
reached for this event? -/
def inDiverts (op : FDOperator) (evt : Nat) (env : EventEnv) : Bool :=
  decide (evt &&& EPOLLIN ≠ 0) && !op.hasOnRead && op.hasInputs &&
    decide (0 < env.inputsLen) && readvErrBad env.readvErr

/-- A prefix of IN-step actions: no OUT processing, no ERR probe, no
hang-up record, no `done()`. -/
def prePlain (fd : Nat) (l : List Action) : Prop :=
  (∀ a ∈ l, isOutAct a = false) ∧ Action.recvmsgProbe fd ∉ l ∧
    Action.hupRecord fd ∉ l ∧ countDone l = 0

theorem checkHup_pos (op : FDOperator) (evt : Nat) (env : EventEnv)
    (hh : evt &&& (EPOLLHUP ||| EPOLLRDHUP) ≠ 0) :
    checkHup op evt env = ⟨appendHupActs op, [op.FD], false⟩ := by
  unfold checkHup
  rw [if_pos hh]

theorem checkHup_neg (op : FDOperator) (evt : Nat) (env : EventEnv)
    (hh : ¬evt &&& (EPOLLHUP ||| EPOLLRDHUP) ≠ 0) :
    checkHup op evt env = checkErr op evt env := by
  unfold checkHup
  rw [if_neg hh]

theorem checkErr_eagain (op : FDOperator) (evt : Nat) (env : EventEnv)
    (he : evt &&& EPOLLERR ≠ 0) (hr : env.recvmsgErr = some EAGAIN) :
    checkErr op evt env
      = ⟨[Action.recvmsgProbe op.FD, Action.done op.FD], [], false⟩ := by
  unfold checkErr
  rw [if_pos he, if_pos hr]

theorem checkErr_hup (op : FDOperator) (evt : Nat) (env : EventEnv)
    (he : evt &&& EPOLLERR ≠ 0) (hr : env.recvmsgErr ≠ some EAGAIN) :
    checkErr op evt env
      = ⟨Action.recvmsgProbe op.FD :: appendHupActs op, [op.FD], false⟩ := by
  unfold checkErr
  rw [if_pos he, if_neg hr]

theorem checkIn_shape (op : FDOperator) (evt : Nat) (env : EventEnv) :
    (inDiverts op evt env = false ∧
      ∃ pre, checkIn op evt env
          = EventResult.withPre pre (checkHup op evt env) ∧
        prePlain op.FD pre ∧
        (evt &&& EPOLLIN ≠ 0 → op.hasOnRead = true →
          Action.onRead op.FD ∈ pre) ∧
        (evt &&& EPOLLIN ≠ 0 → op.hasOnRead = false → op.hasInputs = true →
          Action.inputsCall op.FD ∈ pre)) ∨
    (inDiverts op evt env = true ∧
      ∃ pre, (checkIn op evt env).actions = pre ++ appendHupActs op ∧
        (checkIn op evt env).hups = [op.FD] ∧
        (checkIn op evt env).closed = false ∧
        prePlain op.FD pre ∧ Action.inputsCall op.FD ∈ pre) := by
  by_cases hin : evt &&& EPOLLIN ≠ 0
  · by_cases hr : op.hasOnRead = true
    · refine Or.inl ⟨?_, [Action.onRead op.FD], ?_, ?_, ?_, ?_⟩
      · simp [inDiverts, hr]
      · unfold checkIn
        rw [if_pos hin, if_pos hr]
      · simp [prePlain, countDone, isDoneAct, isOutAct]
      · intro _ _
        simp
      · intro _ hr' _
        rw [hr'] at hr
        exact absurd hr (by simp)
    · by_cases hi : op.hasInputs = true
      · by_cases hlen : 0 < env.inputsLen
        · by_cases hbad : readvErrBad env.readvErr = true
          · refine Or.inr ⟨?_,
              [Action.inputsCall op.FD, Action.readvCall op.FD,
               Action.inputAck op.FD env.readvN, Action.logReadvErr op.FD],
              ?_, ?_, ?_, ?_, ?_⟩
            · simp [inDiverts, hin, hr, hi, hlen, hbad]
            · unfold checkIn
              rw [if_pos hin, if_neg hr, if_pos hi, if_pos hlen, if_pos hbad]
              simp
            · unfold checkIn
              rw [if_pos hin, if_neg hr, if_pos hi, if_pos hlen, if_pos hbad]
            · unfold checkIn
              rw [if_pos hin, if_neg hr, if_pos hi, if_pos hlen, if_pos hbad]
            · simp [prePlain, countDone, isDoneAct, isOutAct]
            · simp
          · refine Or.inl ⟨?_,
              [Action.inputsCall op.FD, Action.readvCall op.FD,
               Action.inputAck op.FD env.readvN], ?_, ?_, ?_, ?_⟩
            · simp [inDiverts, hbad]
            · unfold checkIn
              rw [if_pos hin, if_neg hr, if_pos hi, if_pos hlen, if_neg hbad]
            · simp [prePlain, countDone, isDoneAct, isOutAct]
            · intro _ hr'
              rw [hr'] at hr
              exact absurd rfl hr
            · intro _ _ _
              simp
        · refine Or.inl ⟨?_, [Action.inputsCall op.FD], ?_, ?_, ?_, ?_⟩
          · simp [inDiverts, hlen]
          · unfold checkIn
            rw [if_pos hin, if_neg hr, if_pos hi, if_neg hlen]
          · simp [prePlain, countDone, isDoneAct, isOutAct]
          · intro _ hr'
            rw [hr'] at hr
            exact absurd rfl hr
          · intro _ _ _
            simp
      · refine Or.inl ⟨?_, [Action.logCritical op.FD], ?_, ?_, ?_, ?_⟩
        · simp [inDiverts, hi]
        · unfold checkIn
          rw [if_pos hin, if_neg hr, if_neg hi]
        · simp [prePlain, countDone, isDoneAct, isOutAct]
        · intro _ hr'
          rw [hr'] at hr
          exact absurd rfl hr
        · intro _ _ hi'
          rw [hi'] at hi
          exact absurd rfl hi
  · refine Or.inl ⟨?_, [], ?_, ?_, ?_, ?_⟩
    · simp [inDiverts, hin]
    · unfold checkIn
      rw [if_neg hin]
      rfl
    · simp [prePlain, countDone, isDoneAct, isOutAct]
    · intro hin' _
      exact absurd hin' hin
    · intro hin' _ _
      exact absurd hin' hin

theorem inDiverts_fields (op : FDOperator) (evt : Nat) (env : EventEnv)
    (h : inDiverts op evt env = true) :
    op.hasOnRead = false ∧ op.hasInputs = true := by
  simp only [inDiverts, Bool.and_eq_true, Bool.not_eq_true',
    decide_eq_true_eq] at h
  exact ⟨h.1.1.1.2, h.1.1.2⟩

/-! Claim C8. -/

/-- C8: a non-wake event with HUP or RDHUP set schedules the operator for
hang-up (recording `OnHup` and issuing `PollDetach`, then `done()`), with
the IN-step actions (including `OnRead` or `Inputs` when configured)
performed before the hang-up, and with no OUT processing anywhere in the
event's dispatch. -/
theorem c8_hup_detach (p : Poll) (ev : EpollEvent) (env : EventEnv)
    (hdo : ev.op.doResult = true) (hw : ev.op.FD ≠ p.wopFD)
    (hh : ev.events &&& (EPOLLHUP ||| EPOLLRDHUP) ≠ 0) :
    (handleOne p ev env).hups = [ev.op.FD] ∧
    (∃ pre, (handleOne p ev env).actions = pre ++ appendHupActs ev.op ∧
      (∀ a ∈ pre, isOutAct a = false) ∧
      (ev.events &&& EPOLLIN ≠ 0 → ev.op.hasOnRead = true →
        Action.onRead ev.op.FD ∈ pre) ∧
      (ev.events &&& EPOLLIN ≠ 0 → ev.op.hasOnRead = false →
        ev.op.hasInputs = true → Action.inputsCall ev.op.FD ∈ pre)) ∧
    (∀ a ∈ (handleOne p ev env).actions, isOutAct a = false) := by
  have hone : handleOne p ev env = checkIn ev.op ev.events env := by
    unfold handleOne
    rw [if_neg (by simp [hdo]), if_neg hw]
  rcases checkIn_shape ev.op ev.events env with
    ⟨-, pre, heq, hplain, hread, hinp⟩ | ⟨hdiv, pre, hact, hhups, -, hplain, hinp⟩
  · rw [hone, heq, checkHup_pos ev.op ev.events env hh]
    refine ⟨rfl, ⟨pre, rfl, hplain.1, hread, hinp⟩, ?_⟩
    intro a ha
    rcases List.mem_append.mp ha with h | h
    · exact hplain.1 a h
    · simp only [appendHupActs, List.mem_cons, List.not_mem_nil, or_false] at h
      rcases h with h | h | h
      all_goals simp [h, isOutAct]
  · rw [hone]
    refine ⟨hhups, ⟨pre, hact, hplain.1, ?_, fun _ _ _ => hinp⟩, ?_⟩
    · intro _ hr
      rw [(inDiverts_fields ev.op ev.events env hdiv).1] at hr
      exact absurd hr (by simp)
    · intro a ha
      rw [hact] at ha
      rcases List.mem_append.mp ha with h | h
      · exact hplain.1 a h
      · simp only [appendHupActs, List.mem_cons, List.not_mem_nil, or_false] at h
        rcases h with h | h | h
        all_goals simp [h, isOutAct]

/-- Witness event for C8: IN and RDHUP on a connection operator. -/
def w8Ev : EpollEvent := ⟨EPOLLIN ||| EPOLLRDHUP, ⟨5, true, false, true, false, false⟩⟩

/-- Witness oracle for C8: one input slice, successful readv. -/
def w8Env : EventEnv := ⟨1, 3, none, 0, 0, none, none, 0⟩

/-- Witness for C8: a concrete IN|RDHUP event is hung up with the IN step
performed first. -/
theorem c8_witness :
    (handleOne ⟨1, 0⟩ w8Ev w8Env).hups = [w8Ev.op.FD] ∧
    (∃ pre, (handleOne ⟨1, 0⟩ w8Ev w8Env).actions
          = pre ++ appendHupActs w8Ev.op ∧
      (∀ a ∈ pre, isOutAct a = false) ∧
      (w8Ev.events &&& EPOLLIN ≠ 0 → w8Ev.op.hasOnRead = true →
        Action.onRead w8Ev.op.FD ∈ pre) ∧
      (w8Ev.events &&& EPOLLIN ≠ 0 → w8Ev.op.hasOnRead = false →
        w8Ev.op.hasInputs = true → Action.inputsCall w8Ev.op.FD ∈ pre)) ∧
    (∀ a ∈ (handleOne ⟨1, 0⟩ w8Ev w8Env).actions, isOutAct a = false) :=
  c8_hup_detach ⟨1, 0⟩ w8Ev w8Env (by decide) (by decide) (by decide)

/-! Claim C9. -/

/-- Counterexample event for C9: IN and ERR both set on a connection
operator. -/
def c9Ev : EpollEvent := ⟨EPOLLIN ||| EPOLLERR, ⟨5, true, false, true, false, false⟩⟩

/-- Counterexample oracle for C9: `readv` fails with `ECONNRESET` (104)
while the error-queue probe would return `EAGAIN`. -/
def c9Env : EventEnv := ⟨1, 0, some 104, 0, 0, none, some EAGAIN, 0⟩

/-- Counterexample to C9: on an event with both IN and ERR set whose
`readv` fails fatally, the handler `continue`s from the IN step, so the
`recvmsg(MSG_ERRQUEUE)` probe is never performed and the operator IS
scheduled for hang-up even though the probe would have returned `EAGAIN` —
contradicting the claim for this event. -/
theorem c9_counterexample :
    (handleOne ⟨1, 0⟩ c9Ev c9Env).hups = [5] ∧
    Action.recvmsgProbe 5 ∉ (handleOne ⟨1, 0⟩ c9Ev c9Env).actions ∧
    c9Env.recvmsgErr = some EAGAIN := by decide

/-- C9 as amended: for every non-wake event without HUP/RDHUP whose ERR bit
is set and whose IN step did not itself divert (no fatal `readv` error),
the handler probes the descriptor with `recvmsg(MSG_ERRQUEUE)`; an `EAGAIN`
probe result means no hang-up is scheduled and `done()` is called once; any
other probe result schedules the hang-up; in both cases the OUT bit of the
event is never processed. -/
theorem c9_err_probe (p : Poll) (ev : EpollEvent) (env : EventEnv)
    (hdo : ev.op.doResult = true) (hw : ev.op.FD ≠ p.wopFD)
    (herr : ev.events &&& EPOLLERR ≠ 0)
    (hh : ev.events &&& (EPOLLHUP ||| EPOLLRDHUP) = 0)
    (hnd : inDiverts ev.op ev.events env = false) :
    Action.recvmsgProbe ev.op.FD ∈ (handleOne p ev env).actions ∧
    (env.recvmsgErr = some EAGAIN →
      (handleOne p ev env).hups = [] ∧
      Action.hupRecord ev.op.FD ∉ (handleOne p ev env).actions ∧
      countDone (handleOne p ev env).actions = 1) ∧
    (env.recvmsgErr ≠ some EAGAIN →
      (handleOne p ev env).hups = [ev.op.FD] ∧
      Action.hupRecord ev.op.FD ∈ (handleOne p ev env).actions) ∧
    (∀ a ∈ (handleOne p ev env).actions, isOutAct a = false) := by
  have hone : handleOne p ev env = checkIn ev.op ev.events env := by
    unfold handleOne
    rw [if_neg (by simp [hdo]), if_neg hw]
  have hcnt := (handleOne_countDone p ev env).1
  rw [hdo] at hcnt
  simp only [if_true] at hcnt
  rcases checkIn_shape ev.op ev.events env with
    ⟨-, pre, heq, hplain, -, -⟩ | ⟨hdiv, -⟩
  · have hchain : handleOne p ev env
        = EventResult.withPre pre (checkErr ev.op ev.events env) := by
      rw [hone, heq, checkHup_neg ev.op ev.events env (by simpa using hh)]
    by_cases hre : env.recvmsgErr = some EAGAIN
    · rw [checkErr_eagain ev.op ev.events env herr hre] at hchain
      refine ⟨?_, ?_, ?_, ?_⟩
      · rw [hchain]
        simp [EventResult.withPre]
      · intro _
        refine ⟨by rw [hchain]; rfl, ?_, hcnt⟩
        rw [hchain]
        simp only [EventResult.withPre, List.mem_append, List.mem_cons,
          List.not_mem_nil, or_false, not_or]
        exact ⟨hplain.2.2.1, by simp, by simp⟩
      · intro hre'
        exact absurd hre hre'
      · intro a ha
        rw [hchain] at ha
        simp only [EventResult.withPre, List.mem_append, List.mem_cons,
          List.not_mem_nil, or_false] at ha
        rcases ha with h | h | h
        · exact hplain.1 a h
        all_goals simp [h, isOutAct]
    · rw [checkErr_hup ev.op ev.events env herr hre] at hchain
      refine ⟨?_, ?_, ?_, ?_⟩
      · rw [hchain]
        simp [EventResult.withPre]
      · intro hre'
        exact absurd hre' hre
      · intro _
        refine ⟨by rw [hchain]; rfl, ?_⟩
        rw [hchain]
        simp [EventResult.withPre, appendHupActs]
      · intro a ha
        rw [hchain] at ha
        simp only [EventResult.withPre, appendHupActs, List.mem_append,
          List.mem_cons, List.not_mem_nil, or_false] at ha
        rcases ha with h | h | h | h | h
        · exact hplain.1 a h
        all_goals simp [h, isOutAct]
  · rw [hdiv] at hnd
    exact absurd hnd (by simp)

/-- Witness event for C9: a pure ERR event on a connection operator. -/
def w9Ev : EpollEvent := ⟨EPOLLERR, ⟨5, true, false, true, false, false⟩⟩

/-- Witness oracle for C9: the error-queue probe returns `EAGAIN`. -/
def w9Env : EventEnv := ⟨0, 0, none, 0, 0, none, some EAGAIN, 0⟩

/-- Witness for the amended C9 at a concrete spurious-ERR event. -/
theorem c9_witness :
    Action.recvmsgProbe w9Ev.op.FD ∈ (handleOne ⟨1, 0⟩ w9Ev w9Env).actions ∧
    (w9Env.recvmsgErr = some EAGAIN →
      (handleOne ⟨1, 0⟩ w9Ev w9Env).hups = [] ∧
      Action.hupRecord w9Ev.op.FD ∉ (handleOne ⟨1, 0⟩ w9Ev w9Env).actions ∧
      countDone (handleOne ⟨1, 0⟩ w9Ev w9Env).actions = 1) ∧
    (w9Env.recvmsgErr ≠ some EAGAIN →
      (handleOne ⟨1, 0⟩ w9Ev w9Env).hups = [w9Ev.op.FD] ∧
      Action.hupRecord w9Ev.op.FD ∈ (handleOne ⟨1, 0⟩ w9Ev w9Env).actions) ∧
    (∀ a ∈ (handleOne ⟨1, 0⟩ w9Ev w9Env).actions, isOutAct a = false) :=
  c9_err_probe ⟨1, 0⟩ w9Ev w9Env (by decide) (by decide) (by decide)
    (by decide) (by decide)

/-! Step lemmas for the wait loop. -/

theorem waitLoop_err_eintr (p : Poll) (size n : Nat) (rest : List WaitStep) :
    waitLoop p size n (WaitStep.err EINTR :: rest)
      = ((waitLoop p (resize size n) 0 rest).1,
         ⟨size, n, resize size n, none, false⟩
           :: (waitLoop p (resize size n) 0 rest).2) := by
  rw [waitLoop]
  rw [if_pos rfl]

theorem waitLoop_err_other (p : Poll) (size n e : Nat) (rest : List WaitStep)
    (he : e ≠ EINTR) :
    waitLoop p size n (WaitStep.err e :: rest)
      = (.errored e, [⟨size, n, resize size n, none, false⟩]) := by
  rw [waitLoop]
  rw [if_neg he]

theorem waitLoop_ok_empty (p : Poll) (size n : Nat) (rest : List WaitStep) :
    waitLoop p size n (WaitStep.ok [] :: rest)
      = ((waitLoop p (resize size n) 0 rest).1,
         ⟨size, n, resize size n, none, false⟩
           :: (waitLoop p (resize size n) 0 rest).2) := by
  rw [waitLoop]
  rw [if_pos (show ([] : List (EpollEvent × EventEnv)).length = 0 from rfl)]

theorem waitLoop_ok_closed (p : Poll) (size n : Nat)
    (batch : List (EpollEvent × EventEnv)) (rest : List WaitStep)
    (hne : batch.length ≠ 0) (hc : (handler p batch).closed = true) :
    waitLoop p size n (WaitStep.ok batch :: rest)
      = (.shutdown, [⟨size, n, resize size n, some batch.length, false⟩]) := by
  rw [waitLoop]
  rw [if_neg hne, if_pos hc]

theorem waitLoop_ok_open (p : Poll) (size n : Nat)
    (batch : List (EpollEvent × EventEnv)) (rest : List WaitStep)
    (hne : batch.length ≠ 0) (hc : ¬(handler p batch).closed = true) :
    waitLoop p size n (WaitStep.ok batch :: rest)
      = ((waitLoop p (resize size n) batch.length rest).1,
         ⟨size, n, resize size n, some batch.length, true⟩
           :: (waitLoop p (resize size n) batch.length rest).2) := by
  rw [waitLoop]
  rw [if_neg hne, if_neg hc]

/-! Claim C7. -/

theorem waitLoop_errored_src (p : Poll) :
    ∀ (script : List WaitStep) (size n e : Nat),
      (waitLoop p size n script).1 = WaitOutcome.errored e →
      e ≠ EINTR ∧ WaitStep.err e ∈ script := by
  intro script
  induction script with
  | nil =>
    intro size n e h
    simp [waitLoop] at h
  | cons step rest ih =>
    intro size n e h
    cases step with
    | err e' =>
      by_cases he' : e' = EINTR
      · subst he'
        rw [waitLoop_err_eintr] at h
        obtain ⟨h1, h2⟩ := ih (resize size n) 0 e h
        exact ⟨h1, List.mem_cons_of_mem _ h2⟩
      · rw [waitLoop_err_other p size n e' rest he'] at h
        simp only [WaitOutcome.errored.injEq] at h
        subst h
        exact ⟨he', List.mem_cons_self _ _⟩
    | ok batch =>
      by_cases hne : batch.length = 0
      · have hb : batch = [] := List.length_eq_zero.mp hne
        subst hb
        rw [waitLoop_ok_empty] at h
        obtain ⟨h1, h2⟩ := ih (resize size n) 0 e h
        exact ⟨h1, List.mem_cons_of_mem _ h2⟩
      · by_cases hc : (handler p batch).closed = true
        · rw [waitLoop_ok_closed p size n batch rest hne hc] at h
          simp at h
        · rw [waitLoop_ok_open p size n batch rest hne hc] at h
          obtain ⟨h1, h2⟩ := ih (resize size n) batch.length e h
          exact ⟨h1, List.mem_cons_of_mem _ h2⟩

theorem waitLoop_shutdown_src (p : Poll) :
    ∀ (script : List WaitStep) (size n : Nat),
      (waitLoop p size n script).1 = WaitOutcome.shutdown →
      ∃ batch, WaitStep.ok batch ∈ script ∧ (handler p batch).closed = true := by
  intro script
  induction script with
  | nil =>
    intro size n h
    simp [waitLoop] at h
  | cons step rest ih =>
    intro size n h
    cases step with
    | err e' =>
      by_cases he' : e' = EINTR
      · subst he'
        rw [waitLoop_err_eintr] at h
        obtain ⟨batch, h1, h2⟩ := ih (resize size n) 0 h
        exact ⟨batch, List.mem_cons_of_mem _ h1, h2⟩
      · rw [waitLoop_err_other p size n e' rest he'] at h
        simp at h
    | ok batch =>
      by_cases hne : batch.length = 0
      · have hb : batch = [] := List.length_eq_zero.mp hne
        subst hb
        rw [waitLoop_ok_empty] at h
        obtain ⟨batch', h1, h2⟩ := ih (resize size n) 0 h
        exact ⟨batch', List.mem_cons_of_mem _ h1, h2⟩
      · by_cases hc : (handler p batch).closed = true
        · exact ⟨batch, List.mem_cons_self _ _, hc⟩
        · rw [waitLoop_ok_open p size n batch rest hne hc] at h
          obtain ⟨batch', h1, h2⟩ := ih (resize size n) batch.length h
          exact ⟨batch', List.mem_cons_of_mem _ h1, h2⟩

/-- C7: an `EINTR` from `EpollWait` is retried transparently (the loop goes
on with the same state apart from the resize step); any other error is
returned to the caller as-is; an error outcome can only arise from a
non-`EINTR` error in the script; and a nil return (shutdown outcome) only
arises from a batch on which the handler reported shutdown. -/
theorem c7_wait_errors (p : Poll) :
    (∀ size n rest, (waitLoop p size n (WaitStep.err EINTR :: rest)).1
        = (waitLoop p (resize size n) 0 rest).1) ∧
    (∀ size n e rest, e ≠ EINTR →
      (waitLoop p size n (WaitStep.err e :: rest)).1 = WaitOutcome.errored e) ∧
    (∀ script size n e, (waitLoop p size n script).1 = WaitOutcome.errored e →
      e ≠ EINTR ∧ WaitStep.err e ∈ script) ∧
    (∀ script size n, (waitLoop p size n script).1 = WaitOutcome.shutdown →
      ∃ batch, WaitStep.ok batch ∈ script ∧
        (handler p batch).closed = true) := by
  refine ⟨?_, ?_, ?_, ?_⟩
  · intro size n rest
    rw [waitLoop_err_eintr]
  · intro size n e rest he
    rw [waitLoop_err_other p size n e rest he]
  · intro script size n e
    exact waitLoop_errored_src p script size n e
  · intro script size n
    exact waitLoop_shutdown_src p script size n

/-- Witness for C7: a concrete script with one `EINTR` retry followed by a
fatal `EBADF` (9). -/
theorem c7_witness :
    (waitLoop ⟨1, 0⟩ 128 0 (WaitStep.err EINTR :: [WaitStep.err 9])).1
        = (waitLoop ⟨1, 0⟩ (resize 128 0) 0 [WaitStep.err 9]).1 ∧
    (9 : Nat) ≠ EINTR ∧ WaitStep.err 9 ∈ [WaitStep.err EINTR, WaitStep.err 9] := by
  refine ⟨(c7_wait_errors ⟨1, 0⟩).1 128 0 [WaitStep.err 9], ?_⟩
  exact (c7_wait_errors ⟨1, 0⟩).2.2.1 [WaitStep.err EINTR, WaitStep.err 9]
    128 0 9 (by decide)

/-! Claim C6. -/

theorem resize_ge (size n : Nat) : size ≤ resize size n := by
  unfold resize
  split <;> omega

theorem waitLoop_rec_sizeUsed (p : Poll) :
    ∀ (script : List WaitStep) (size n : Nat),
      ∀ rec ∈ (waitLoop p size n script).2,
        rec.sizeUsed = resize rec.sizeBefore rec.nPrev := by
  intro script
  induction script with
  | nil =>
    intro size n rec h
    simp [waitLoop] at h
  | cons step rest ih =>
    intro size n rec h
    cases step with
    | err e' =>
      by_cases he' : e' = EINTR
      · subst he'
        rw [waitLoop_err_eintr] at h
        rcases List.mem_cons.mp h with h | h
        · rw [h]
        · exact ih (resize size n) 0 rec h
      · rw [waitLoop_err_other p size n e' rest he'] at h
        simp only [List.mem_singleton] at h
        rw [h]
    | ok batch =>
      by_cases hne : batch.length = 0
      · have hb : batch = [] := List.length_eq_zero.mp hne
        subst hb
        rw [waitLoop_ok_empty] at h
        rcases List.mem_cons.mp h with h | h
        · rw [h]
        · exact ih (resize size n) 0 rec h
      · by_cases hc : (handler p batch).closed = true
        · rw [waitLoop_ok_closed p size n batch rest hne hc] at h
          simp only [List.mem_singleton] at h
          rw [h]
        · rw [waitLoop_ok_open p size n batch rest hne hc] at h
          rcases List.mem_cons.mp h with h | h
          · rw [h]
          · exact ih (resize size n) batch.length rec h

theorem waitLoop_inv (p : Poll) (P : Nat → Prop)
    (hP : ∀ s m, P s → P (resize s m)) :
    ∀ (script : List WaitStep) (size n : Nat), P size →
      ∀ rec ∈ (waitLoop p size n script).2,
        P rec.sizeBefore ∧ P rec.sizeUsed := by
  intro script
  induction script with
  | nil =>
    intro size n _ rec h
    simp [waitLoop] at h
  | cons step rest ih =>
    intro size n hsz rec h
    cases step with
    | err e' =>
      by_cases he' : e' = EINTR
      · subst he'
        rw [waitLoop_err_eintr] at h
        rcases List.mem_cons.mp h with h | h
        · rw [h]
          exact ⟨hsz, hP size n hsz⟩
        · exact ih (resize size n) 0 (hP size n hsz) rec h
      · rw [waitLoop_err_other p size n e' rest he'] at h
        simp only [List.mem_singleton] at h
        rw [h]
        exact ⟨hsz, hP size n hsz⟩
    | ok batch =>
      by_cases hne : batch.length = 0
      · have hb : batch = [] := List.length_eq_zero.mp hne
        subst hb
        rw [waitLoop_ok_empty] at h
        rcases List.mem_cons.mp h with h | h
        · rw [h]
          exact ⟨hsz, hP size n hsz⟩
        · exact ih (resize size n) 0 (hP size n hsz) rec h
      · by_cases hc : (handler p batch).closed = true
        · rw [waitLoop_ok_closed p size n batch rest hne hc] at h
          simp only [List.mem_singleton] at h
          rw [h]
          exact ⟨hsz, hP size n hsz⟩
        · rw [waitLoop_ok_open p size n batch rest hne hc] at h
          rcases List.mem_cons.mp h with h | h
          · rw [h]
            exact ⟨hsz, hP size n hsz⟩
          · exact ih (resize size n) batch.length (hP size n hsz) rec h

theorem waitLoop_head (p : Poll) :
    ∀ (script : List WaitStep) (size n : Nat) (rec : IterRec),
      (waitLoop p size n script).2.head? = some rec →
      rec.sizeBefore = size ∧ rec.nPrev = n ∧
        rec.sizeUsed = resize size n := by
  intro script size n rec h
  cases script with
  | nil => simp [waitLoop] at h
  | cons step rest =>
    cases step with
    | err e' =>
      by_cases he' : e' = EINTR
      · subst he'
        rw [waitLoop_err_eintr] at h
        simp only [List.head?_cons, Option.some.injEq] at h
        rw [← h]
        exact ⟨rfl, rfl, rfl⟩
      · rw [waitLoop_err_other p size n e' rest he'] at h
        simp only [List.head?_cons, Option.some.injEq] at h
        rw [← h]
        exact ⟨rfl, rfl, rfl⟩
    | ok batch =>
      by_cases hne : batch.length = 0
      · have hb : batch = [] := List.length_eq_zero.mp hne
        subst hb
        rw [waitLoop_ok_empty] at h
        simp only [List.head?_cons, Option.some.injEq] at h
        rw [← h]
        exact ⟨rfl, rfl, rfl⟩
      · by_cases hc : (handler p batch).closed = true
        · rw [waitLoop_ok_closed p size n batch rest hne hc] at h
          simp only [List.head?_cons, Option.some.injEq] at h
          rw [← h]
          exact ⟨rfl, rfl, rfl⟩
        · rw [waitLoop_ok_open p size n batch rest hne hc] at h
          simp only [List.head?_cons, Option.some.injEq] at h
          rw [← h]
          exact ⟨rfl, rfl, rfl⟩

theorem waitLoop_chain (p : Poll) :
    ∀ (script : List WaitStep) (size n : Nat),
      List.Chain' (fun a b => b.sizeBefore = a.sizeUsed)
        (waitLoop p size n script).2 := by
  intro script
  induction script with
  | nil =>
    intro size n
    simp [waitLoop]
  | cons step rest ih =>
    intro size n
    have hstep : ∀ (n' : Nat) (rec0 : IterRec), rec0.sizeUsed = resize size n →
        List.Chain' (fun a b => b.sizeBefore = a.sizeUsed)
          (rec0 :: (waitLoop p (resize size n) n' rest).2) := by
      intro n' rec0 hrec0
      refine List.chain'_cons'.mpr ⟨?_, ih (resize size n) n'⟩
      intro y hy
      obtain ⟨h1, -, -⟩ := waitLoop_head p rest (resize size n) n' y hy
      rw [h1, hrec0]
    cases step with
    | err e' =>
      by_cases he' : e' = EINTR
      · subst he'
        rw [waitLoop_err_eintr]
        exact hstep 0 _ rfl
      · rw [waitLoop_err_other p size n e' rest he']
        simp
    | ok batch =>
      by_cases hne : batch.length = 0
      · have hb : batch = [] := List.length_eq_zero.mp hne
        subst hb
        rw [waitLoop_ok_empty]
        exact hstep 0 _ rfl
      · by_cases hc : (handler p batch).closed = true
        · rw [waitLoop_ok_closed p size n batch rest hne hc]
          simp
        · rw [waitLoop_ok_open p size n batch rest hne hc]
          exact hstep batch.length _ rfl

/-- The sizes reachable by doubling from 128 below the cap. -/
theorem sizePred_resize (s m : Nat) (h : ∃ k, k ≤ 10 ∧ s = 128 * 2 ^ k) :
    ∃ k, k ≤ 10 ∧ resize s m = 128 * 2 ^ k := by
  obtain ⟨k, hk, hs⟩ := h
  unfold resize
  split
  · next hcond =>
    have hlt : 128 * 2 ^ k < 128 * 1024 := by
      rw [← hs]
      exact hcond.2
    have h2k : (2 : Nat) ^ k < 1024 := by omega
    have hk9 : k < 10 := by
      by_contra hge
      have : (2 : Nat) ^ 10 ≤ 2 ^ k :=
        Nat.pow_le_pow_right (by norm_num) (by omega)
      norm_num at this
      omega
    refine ⟨k + 1, by omega, ?_⟩
    rw [hs, pow_succ]
    ring
  · exact ⟨k, hk, hs⟩

theorem sizePred_le (s : Nat) (h : ∃ k, k ≤ 10 ∧ s = 128 * 2 ^ k) :
    s ≤ 128 * 1024 := by
  obtain ⟨k, hk, hs⟩ := h
  have : (2 : Nat) ^ k ≤ 2 ^ 10 := Nat.pow_le_pow_right (by norm_num) hk
  norm_num at this
  omega

/-- C6: within one `Wait` invocation the first `epoll_wait` uses size 128;
every iteration's size is doubled exactly when the previous call returned a
count equal to the current size while it is still below `128*1024`
(otherwise kept), so sizes never shrink, take only values `128 * 2^k`
(`k ≤ 10`), and never exceed `128*1024`; and `pollArgs.reset` reallocates
the event and barrier arrays to the same length. -/
theorem c6_wait_sizing (p : Poll) (script : List WaitStep) :
    (∀ rec, (Wait p script).2.head? = some rec →
      rec.sizeBefore = 128 ∧ rec.sizeUsed = 128) ∧
    (∀ rec ∈ (Wait p script).2,
      rec.sizeUsed
          = (if rec.nPrev = rec.sizeBefore ∧ rec.sizeBefore < 128 * 1024
             then rec.sizeBefore * 2 else rec.sizeBefore) ∧
      rec.sizeBefore ≤ rec.sizeUsed ∧
      (∃ k, k ≤ 10 ∧ rec.sizeUsed = 128 * 2 ^ k) ∧
      rec.sizeUsed ≤ 128 * 1024) ∧
    List.Chain' (fun a b => b.sizeBefore = a.sizeUsed) (Wait p script).2 ∧
    (∀ (a : PollArgs) (size caps : Nat),
      (a.reset size caps).eventsLen = size ∧
      (a.reset size caps).barriersLen = size ∧
      (a.reset size caps).size = size) := by
  refine ⟨?_, ?_, waitLoop_chain p script 128 0, ?_⟩
  · intro rec h
    obtain ⟨h1, h2, h3⟩ := waitLoop_head p script 128 0 rec h
    exact ⟨h1, by rw [h3]; rfl⟩
  · intro rec hrec
    have hform := waitLoop_rec_sizeUsed p script 128 0 rec hrec
    have hinv := waitLoop_inv p (fun s => ∃ k, k ≤ 10 ∧ s = 128 * 2 ^ k)
      sizePred_resize script 128 0 ⟨0, by omega, by norm_num⟩ rec hrec
    refine ⟨by rw [hform]; rfl, ?_, hinv.2, sizePred_le _ hinv.2⟩
    rw [hform]
    exact resize_ge rec.sizeBefore rec.nPrev
  · intro a size caps
    exact ⟨rfl, rfl, rfl⟩

/-- Witness for C6 at a concrete script (one fatal error after one
iteration). -/
theorem c6_witness :
    (⟨128, 0, 128, none, false⟩ : IterRec).sizeBefore
        ≤ (⟨128, 0, 128, none, false⟩ : IterRec).sizeUsed ∧
    (∃ k, k ≤ 10 ∧
      (⟨128, 0, 128, none, false⟩ : IterRec).sizeUsed = 128 * 2 ^ k) ∧
    (⟨128, 0, 128, none, false⟩ : IterRec).sizeUsed ≤ 128 * 1024 := by
  have h := (c6_wait_sizing ⟨1, 0⟩ [WaitStep.err 9]).2.1
    ⟨128, 0, 128, none, false⟩ (by decide)
  exact ⟨h.2.1, h.2.2.1, h.2.2.2⟩

/-! Claim C10. -/

/-- C10: when the shutdown sentinel is detected, the handler returns from
within the batch loop: the dispatched results end exactly at the closing
event (later events of the batch are never dispatched), `detaches()` is not
reached, and the enclosing `Wait` iteration returns (shutdown outcome)
without ever calling `opcache.free()` for that final batch. -/
theorem c10_shutdown_truncates (p : Poll)
    (batch : List (EpollEvent × EventEnv))
    (h : (handler p batch).closed = true) :
    (handler p batch).detachesRun = false ∧
    (handler p batch).results.length ≤ batch.length ∧
    (∃ rs r, (handler p batch).results = rs ++ [r] ∧ r.closed = true ∧
      ∀ x ∈ rs, x.closed = false) ∧
    (∀ size n rest,
      (waitLoop p size n (WaitStep.ok batch :: rest)).1
          = WaitOutcome.shutdown ∧
      ∀ rec ∈ (waitLoop p size n (WaitStep.ok batch :: rest)).2,
        rec.freed = false) := by
  have hloop : (handlerLoop p batch).2 = true := by simpa [handler] using h
  have hne : batch ≠ [] := handlerLoop_closed_ne_nil p batch hloop
  refine ⟨?_, ?_, ?_, ?_⟩
  · simp [handler, hloop]
  · simpa [handler] using handlerLoop_length_le p batch
  · simpa [handler] using handlerLoop_closed_split p batch hloop
  · intro size n rest
    rw [waitLoop_ok_closed p size n batch rest (by simpa using hne) h]
    refine ⟨rfl, ?_⟩
    intro rec hrec
    simp only [List.mem_singleton] at hrec
    rw [hrec]

/-- Witness batch for C10: a shutdown wake followed by an ordinary event
that must never be dispatched. -/
def w10Batch : List (EpollEvent × EventEnv) := [(w5Ev, w5Env), (w1Ev, w1Env)]

/-- Witness for C10 at a concrete two-event batch whose first event is the
shutdown wake. -/
theorem c10_witness :
    (handler ⟨1, 0⟩ w10Batch).detachesRun = false ∧
    (handler ⟨1, 0⟩ w10Batch).results.length ≤ w10Batch.length ∧
    (∃ rs r, (handler ⟨1, 0⟩ w10Batch).results = rs ++ [r] ∧
      r.closed = true ∧ ∀ x ∈ rs, x.closed = false) ∧
    (∀ size n rest,
      (waitLoop ⟨1, 0⟩ size n (WaitStep.ok w10Batch :: rest)).1
          = WaitOutcome.shutdown ∧
      ∀ rec ∈ (waitLoop ⟨1, 0⟩ size n (WaitStep.ok w10Batch :: rest)).2,
        rec.freed = false) :=
  c10_shutdown_truncates ⟨1, 0⟩ w10Batch (by decide)

end Netpoll

